import Mathlib

/-!
Shallow embedding of the ibkr_trading repository core bookkeeping
(src/backtesting/pos_order_trade.py), the performance metric functions
(src/backtesting/ib_orb_bktest_initial.py), the backtest driver loop
(src/backtesting/backtester.py and the initial draft loop), and the
bar-by-bar intraday simulators of the two strategy drafts
(src/backtesting/strategies/OpenRangeBreakout.py and
src/backtesting/strategies/LinearRegSigmaStrategy.py).

Python numbers are modelled as rationals, Python exceptions as an
explicit error type (fallible operations return Except), and Python
dynamic attribute lookup as an association list built from exactly the
assignments performed in the corresponding constructor, so that a read
of a never-assigned attribute is observable as a lookup miss
(AttributeError).
-/

namespace IbkrTrading

/-- Trade or position side: "B" (buy, long) or "S" (sell, short). -/
inductive Side where
  | B
  | S
deriving DecidableEq, Repr

/-- A Python attribute value, as far as the embedded code needs them. -/
inductive PyVal where
  | num (q : ℚ)
  | str (s : String)
  | sideV (s : Side)
deriving DecidableEq, Repr

/-- The Python exceptions the embedded code can raise. -/
inductive PyErr where
  | valueError (msg : String)
  | zeroDivisionError
  | attributeError
  | typeError
deriving DecidableEq, Repr

/-- Embedding of class Trade (pos_order_trade.py): the fields assigned in
its constructor, in order; realized_pnl is initialised to 0 there. -/
structure Trade where
  contract : String
  price : ℚ
  volume : ℚ
  side : Side
  timestamp : ℚ
  comment : String
  realized_pnl : ℚ
deriving DecidableEq, Repr

/-- Trade construction mirrors the Python constructor, which always sets
realized_pnl = 0. -/
def Trade.make (contract : String) (price volume : ℚ) (side : Side)
    (timestamp : ℚ) (comment : String) : Trade :=
  ⟨contract, price, volume, side, timestamp, comment, 0⟩

/-- The attribute dictionary a Trade object carries after its constructor
ran: exactly the names assigned in Trade.__init__. -/
def Trade.attrs (t : Trade) : List (String × PyVal) :=
  [("contract", PyVal.str t.contract),
   ("price", PyVal.num t.price),
   ("volume", PyVal.num t.volume),
   ("side", PyVal.sideV t.side),
   ("timestamp", PyVal.num t.timestamp),
   ("comment", PyVal.str t.comment),
   ("realized_pnl", PyVal.num t.realized_pnl)]

/-- Python attribute lookup on a Trade object; none means AttributeError. -/
def Trade.getattr (t : Trade) (name : String) : Option PyVal :=
  t.attrs.lookup name

/-- Embedding of class Position (pos_order_trade.py): the average entry
price is stored in the field named price. -/
structure Position where
  contract : String
  price : ℚ
  volume : ℚ
  side : Side
  open_timestamp : ℚ
  last_update : ℚ
deriving DecidableEq, Repr

/-- The attribute dictionary a Position object carries after its
constructor ran: exactly the names assigned in Position.__init__. -/
def Position.attrs (p : Position) : List (String × PyVal) :=
  [("contract", PyVal.str p.contract),
   ("price", PyVal.num p.price),
   ("volume", PyVal.num p.volume),
   ("side", PyVal.sideV p.side),
   ("open_timestamp", PyVal.num p.open_timestamp),
   ("last_update", PyVal.num p.last_update)]

/-- Python attribute lookup on a Position object; none means
AttributeError. -/
def Position.getattr (p : Position) (name : String) : Option PyVal :=
  p.attrs.lookup name

/-- Position.add (pos_order_trade.py lines 62-76): same-side accumulation
with volume-weighted average price. Python raises ValueError on a
different contract or side, and ZeroDivisionError if the new total volume
is zero. -/
def Position.add (p : Position) (t : Trade) : Except PyErr Position :=
  if p.contract ≠ t.contract then
    Except.error (PyErr.valueError "Cannot add to the position: different product.")
  else if p.side ≠ t.side then
    Except.error (PyErr.valueError "Cannot add to the position: trade side differs from the open position.")
  else
    let new_total_volume := p.volume + t.volume
    if new_total_volume = 0 then Except.error PyErr.zeroDivisionError
    else Except.ok
      { p with
        price := (p.price * p.volume + t.price * t.volume) / new_total_volume,
        volume := new_total_volume,
        last_update := t.timestamp }

/-- Position.reduce (pos_order_trade.py lines 78-101): opposite-side
reduction. Returns the updated position together with the trade, whose
realized_pnl field has been stamped (the only field reduce writes on the
trade). -/
def Position.reduce (p : Position) (t : Trade) : Except PyErr (Position × Trade) :=
  if p.contract ≠ t.contract then
    Except.error (PyErr.valueError "Cannot reduce the position: different product.")
  else if p.side = t.side then
    Except.error (PyErr.valueError "Cannot reduce the position: same side trade.")
  else
    let realized_pnl :=
      if p.side = Side.B then (t.price - p.price) * min t.volume p.volume
      else (p.price - t.price) * min t.volume p.volume
    let p1 := if t.volume > p.volume then { p with price := t.price, side := t.side } else p
    let p2 := { p1 with volume := |p.volume - t.volume|, last_update := t.timestamp }
    Except.ok (p2, { t with realized_pnl := realized_pnl })

/-- Folding Position.add over a list of trades, propagating the first
raised exception, as a sequence of Python method calls would. -/
def Position.addAll (p : Position) : List Trade → Except PyErr Position
  | [] => Except.ok p
  | t :: ts =>
    match Position.add p t with
    | Except.error e => Except.error e
    | Except.ok p1 => Position.addAll p1 ts

/-! ### Performance metrics (ib_orb_bktest_initial.py lines 275-300)

The result matrix is a mapping date to mapping symbol to return; the
metric functions only iterate over its values, so it is embedded as a
list of rows of rationals. -/

/-- One step of the win/lose counting loop in win_rate. -/
def tally (wl : ℕ × ℕ) (r : ℚ) : ℕ × ℕ :=
  if r > 0 then (wl.1 + 1, wl.2)
  else if r < 0 then (wl.1, wl.2 + 1)
  else wl

/-- The nested counting loops of win_rate. -/
def win_lose_counts (date_stats : List (List ℚ)) : ℕ × ℕ :=
  date_stats.foldl (fun wl row => row.foldl tally wl) (0, 0)

/-- win_rate (ib_orb_bktest_initial.py lines 275-284): percentage of
strictly positive entries among the nonzero ones. Python divides by
win_count + lose_count, which raises ZeroDivisionError when that sum is
zero. -/
def win_rate (date_stats : List (List ℚ)) : Except PyErr ℚ :=
  let wl := win_lose_counts date_stats
  if wl.1 + wl.2 = 0 then Except.error PyErr.zeroDivisionError
  else Except.ok ((wl.1 : ℚ) / ((wl.1 : ℚ) + (wl.2 : ℚ)) * 100)

/-- mean_ret_winner (ib_orb_bktest_initial.py lines 286-292): collects the
strictly positive entries and divides their sum by their count, which
raises ZeroDivisionError when there are none. -/
def mean_ret_winner (date_stats : List (List ℚ)) : Except PyErr ℚ :=
  let win_ret := date_stats.foldl (fun acc row => acc ++ row.filter (fun r => decide (r > 0))) []
  if win_ret.length = 0 then Except.error PyErr.zeroDivisionError
  else Except.ok (win_ret.sum / (win_ret.length : ℚ))

/-- mean_ret_loser (ib_orb_bktest_initial.py lines 294-300): collects the
strictly negative entries and divides their sum by their count, which
raises ZeroDivisionError when there are none. -/
def mean_ret_loser (date_stats : List (List ℚ)) : Except PyErr ℚ :=
  let los_ret := date_stats.foldl (fun acc row => acc ++ row.filter (fun r => decide (r < 0))) []
  if los_ret.length = 0 then Except.error PyErr.zeroDivisionError
  else Except.ok (los_ret.sum / (los_ret.length : ℚ))

/-- Transcription of the claim C6 counting rule: the number of strictly
positive entries of the result matrix. -/
def specPositiveCount (date_stats : List (List ℚ)) : ℕ :=
  (date_stats.map (fun row => (row.filter (fun r => decide (0 < r))).length)).sum

/-- Transcription of the claim C6 counting rule: the number of strictly
negative entries of the result matrix. -/
def specNegativeCount (date_stats : List (List ℚ)) : ℕ :=
  (date_stats.map (fun row => (row.filter (fun r => decide (r < 0))).length)).sum

/-- Transcription of the claim C7 selection rule: the strictly positive
entries of the result matrix, in order. -/
def specWinners (date_stats : List (List ℚ)) : List ℚ :=
  (date_stats.map (fun row => row.filter (fun r => decide (r > 0)))).flatten

/-- Transcription of the claim C7 selection rule: the strictly negative
entries of the result matrix, in order. -/
def specLosers (date_stats : List (List ℚ)) : List ℚ :=
  (date_stats.map (fun row => row.filter (fun r => decide (r < 0)))).flatten

/-! ### Backtest driver loops (backtester.py and ib_orb_bktest_initial.py) -/

/-- One OHLCV bar, the columns the simulators read. -/
structure Bar where
  Open : ℚ
  High : ℚ
  Low : ℚ
  Close : ℚ
  Volume : ℚ
deriving DecidableEq, Repr, Inhabited

/-- What the broker fetch produced for one symbol/date request: an error
callback (app.skip), no buffered data at the request id, or a bar frame
(possibly empty). -/
inductive FetchOutcome where
  | err
  | noData
  | bars (bs : List Bar)
deriving DecidableEq, Repr

/-- The per-item recording rule of Backtester.run (backtester.py lines
59-77): an IB error records 0, a missing or empty frame records 0,
otherwise the intraday simulation result is recorded. The simulation
itself is abstracted as the function sim. -/
def outcomeResult (sim : List Bar → ℚ) : FetchOutcome → ℚ
  | FetchOutcome.err => 0
  | FetchOutcome.noData => 0
  | FetchOutcome.bars bs => if bs.isEmpty then 0 else sim bs

/-- The inner (per-date) loop of Backtester.run: every ticker of the
gap list gets an entry. -/
def Backtester.runDay (sim : List Bar → ℚ) (items : List (String × FetchOutcome)) :
    List (String × ℚ) :=
  items.map (fun it => (it.1, outcomeResult sim it.2))

/-- The full Backtester.run result matrix over the dated trade universe. -/
def Backtester.run (sim : List Bar → ℚ)
    (univ : List (String × List (String × FetchOutcome))) :
    List (String × List (String × ℚ)) :=
  univ.map (fun d => (d.1, Backtester.runDay sim d.2))

/-- The per-date loop of the initial draft backtest
(ib_orb_bktest_initial.py lines 178-191): on an IB error the loop hits
continue before recording anything (the reqID increment after that
continue is unreachable), and on a missing or empty frame it also skips
without recording; only items with data receive an entry. -/
def backtestInitialDay (sim : List Bar → ℚ) : List (String × FetchOutcome) → List (String × ℚ)
  | [] => []
  | (_, FetchOutcome.err) :: rest => backtestInitialDay sim rest
  | (_, FetchOutcome.noData) :: rest => backtestInitialDay sim rest
  | (tk, FetchOutcome.bars bs) :: rest =>
    if bs.isEmpty then backtestInitialDay sim rest
    else (tk, sim bs) :: backtestInitialDay sim rest

/-- A trivial intraday simulation returning 0 on any bars, used to
instantiate the abstracted driver loops on concrete inputs. -/
def constZeroSim : List Bar → ℚ := fun _ => 0

/-! ### Bar-by-bar intraday simulators (both strategy drafts)

Both simulate_intraday methods mutate a position slot and a trade log and
can raise; the embedding threads that state explicitly and returns it
also on failure, since in Python the object state survives the
exception. -/

/-- The mutable state a simulate_intraday call works on: the position
slot, the trade log, and the running floating return. -/
structure SimState where
  position : Option Position
  trades : List Trade
  final_return : ℚ
deriving DecidableEq, Repr

/-- Outcome of handling one bar: continue the loop, break out of it, or
propagate a raised exception. -/
inductive StepOut where
  | cont (st : SimState)
  | stop (st : SimState)
  | fail (e : PyErr) (st : SimState)
deriving DecidableEq, Repr

/-- The closing sequence of LinRegSigmaStrategy on a take-profit or
stop-loss bar: build the closing Trade, call Position.reduce, append the
stamped trade to the log, then read position.avg_price to compute the
realized return (long: close / avg - 1, short: 1 - close / avg), clear
the position slot and break. -/
def LinReg.closeAndMark (ticker : String) (date : ℚ) (st : SimState) (pos : Position)
    (close_price : ℚ) (closeSide : Side) (comment : String) (isLong : Bool) : StepOut :=
  match Position.reduce pos (Trade.make ticker close_price pos.volume closeSide date comment) with
  | Except.error e => StepOut.fail e st
  | Except.ok (pos1, tr1) =>
    let st1 : SimState := { st with position := some pos1, trades := st.trades ++ [tr1] }
    match Position.getattr pos1 "avg_price" with
    | none => StepOut.fail PyErr.attributeError st1
    | some (PyVal.num avg) =>
      if avg = 0 then StepOut.fail PyErr.zeroDivisionError st1
      else
        StepOut.stop { st1 with
          final_return := if isLong then close_price / avg - 1 else 1 - close_price / avg,
          position := none }
    | some _ => StepOut.fail PyErr.typeError st1

/-- The closing sequence of OpenRangeBreakout on a take-profit or
stop-loss bar: as in the other draft, but the position slot is cleared
only when the reduced volume is zero, before breaking. -/
def ORB.closeAndMark (ticker : String) (date : ℚ) (st : SimState) (pos : Position)
    (close_price : ℚ) (closeSide : Side) (comment : String) (isLong : Bool) : StepOut :=
  match Position.reduce pos (Trade.make ticker close_price pos.volume closeSide date comment) with
  | Except.error e => StepOut.fail e st
  | Except.ok (pos1, tr1) =>
    let st1 : SimState := { st with position := some pos1, trades := st.trades ++ [tr1] }
    match Position.getattr pos1 "avg_price" with
    | none => StepOut.fail PyErr.attributeError st1
    | some (PyVal.num avg) =>
      if avg = 0 then StepOut.fail PyErr.zeroDivisionError st1
      else
        let st2 : SimState := { st1 with
          final_return := if isLong then close_price / avg - 1 else 1 - close_price / avg }
        StepOut.stop (if pos1.volume = 0 then { st2 with position := none } else st2)
    | some _ => StepOut.fail PyErr.typeError st1

/-- The floating-PnL update both drafts share on a bar without an exit:
read position.avg_price and set the running return from the bar price. -/
def floatingMark (st : SimState) (pos : Position) (price : ℚ) (isLong : Bool) : StepOut :=
  match Position.getattr pos "avg_price" with
  | none => StepOut.fail PyErr.attributeError st
  | some (PyVal.num avg) =>
    if avg = 0 then StepOut.fail PyErr.zeroDivisionError st
    else StepOut.cont { st with final_return := if isLong then price / avg - 1 else 1 - price / avg }
  | some _ => StepOut.fail PyErr.typeError st

/-- The regression band parameters simulate_intraday receives through
kwargs in LinRegSigmaStrategy; absent keys default to None. -/
structure LRParams where
  lr_med : Option ℚ
  lr_long : Option ℚ
  sigma_med : Option ℚ
  sigma_long : Option ℚ
deriving DecidableEq, Repr

/-- The entry predicates of LinRegSigmaStrategy.simulate_intraday (lines
255-273): buy when all four parameters are not None and the price is
strictly below both lower bands (center - 2 sigma); sell when all four
are not None and the price is strictly above both upper bands. -/
def LinReg.openSignal (ps : LRParams) (price : ℚ) : Option Side :=
  match ps.lr_med, ps.sigma_med, ps.lr_long, ps.sigma_long with
  | some lm, some sm, some ll, some sl =>
    if price < lm - 2 * sm ∧ price < ll - 2 * sl then some Side.B
    else if price > lm + 2 * sm ∧ price > ll + 2 * sl then some Side.S
    else none
  | _, _, _, _ => none

/-- The open-position step of LinRegSigmaStrategy.simulate_intraday: when
the position slot is empty and an entry predicate fires, create the
Position and log the opening Trade. -/
def LinReg.openStep (ticker : String) (date volume : ℚ) (ps : LRParams)
    (st : SimState) (price : ℚ) : SimState :=
  if st.position.isSome then st
  else
    match LinReg.openSignal ps price with
    | some Side.B =>
      { st with
        position := some (Position.mk ticker price volume Side.B date date)
        trades := st.trades ++ [Trade.make ticker price volume Side.B date "Open long LR strategy intraday"] }
    | some Side.S =>
      { st with
        position := some (Position.mk ticker price volume Side.S date date)
        trades := st.trades ++ [Trade.make ticker price volume Side.S date "Open short LR strategy intraday"] }
    | none => st

/-- The exit step of LinRegSigmaStrategy.simulate_intraday (lines
276-330): with an open long, take profit at the medium center, stop out
at center - 3.5 sigma, otherwise update the floating return; with an open
short, symmetrically. Conditions involving a None parameter are skipped,
falling through to the floating branch. -/
def LinReg.exitStep (ticker : String) (date : ℚ) (ps : LRParams)
    (st : SimState) (price : ℚ) : StepOut :=
  match st.position with
  | none => StepOut.cont st
  | some pos =>
    if pos.side = Side.B then
      match ps.lr_med with
      | some lm =>
        if price ≥ lm then
          closeAndMark ticker date st pos lm Side.S "Close long: TP" true
        else
          match ps.sigma_med with
          | some sm =>
            if price ≤ lm - 3.5 * sm then
              closeAndMark ticker date st pos (lm - 3.5 * sm) Side.S "Close long: SL" true
            else floatingMark st pos price true
          | none => floatingMark st pos price true
      | none => floatingMark st pos price true
    else
      match ps.lr_med with
      | some lm =>
        if price ≤ lm then
          closeAndMark ticker date st pos lm Side.B "Close short: TP" false
        else
          match ps.sigma_med with
          | some sm =>
            if price ≥ lm + 3.5 * sm then
              closeAndMark ticker date st pos (lm + 3.5 * sm) Side.B "Close short: SL" false
            else floatingMark st pos price false
          | none => floatingMark st pos price false
      | none => floatingMark st pos price false

/-- The bar loop of LinRegSigmaStrategy.simulate_intraday: each bar first
runs the open step, then the exit step on the same bar; break returns the
running final_return, an exception propagates with the object state. -/
def LinReg.runBars (ticker : String) (date volume : ℚ) (ps : LRParams) :
    SimState → List ℚ → Except (PyErr × SimState) (ℚ × SimState)
  | st, [] => Except.ok (st.final_return, st)
  | st, price :: rest =>
    let st1 := LinReg.openStep ticker date volume ps st price
    match LinReg.exitStep ticker date ps st1 price with
    | StepOut.cont st2 => LinReg.runBars ticker date volume ps st2 rest
    | StepOut.stop st2 => Except.ok (st2.final_return, st2)
    | StepOut.fail e st2 => Except.error (e, st2)

/-- LinRegSigmaStrategy.simulate_intraday over the close prices of the
intraday bars, starting from the position slot self.position[ticker] and
the trade log self.trades[ticker]. -/
def LinReg.simulate_intraday (ticker : String) (date volume : ℚ) (ps : LRParams)
    (pos0 : Option Position) (trades0 : List Trade) (closes : List ℚ) :
    Except (PyErr × SimState) (ℚ × SimState) :=
  LinReg.runBars ticker date volume ps ⟨pos0, trades0, 0⟩ closes

/-- The entry slippage model of OpenRangeBreakout (_entry_slippage):
interpolate the next bar, falling back to the current close when there is
no next bar. -/
def ORB.entrySlippage (bars : List Bar) (i : ℕ) (isLong : Bool) : ℚ :=
  match bars.get? (i + 1) with
  | some nb => if isLong then 0.8 * nb.Open + 0.2 * nb.High else 0.8 * nb.Open + 0.2 * nb.Low
  | none => (bars.getD i default).Close

/-- The open-position step of OpenRangeBreakout.simulate_intraday at bar
index i: with no position and a preceding volume spike, a break of the
range high opens long and a break of the range low opens short, at the
slippage-adjusted entry price. -/
def ORB.openStep (ticker : String) (date : ℚ) (threshold hi lo : ℚ)
    (bars : List Bar) (i : ℕ) (st : SimState) : SimState :=
  let bar_prev := bars.getD (i - 1) default
  let bar_cur := bars.getD i default
  if st.position.isSome then st
  else if bar_prev.Volume > threshold then
    if bar_cur.High > hi then
      let entry_price := ORB.entrySlippage bars i true
      { st with
        position := some (Position.mk ticker entry_price 1 Side.B date date)
        trades := st.trades ++ [Trade.make ticker entry_price 1 Side.B date "Open long breakout"] }
    else if bar_cur.Low < lo then
      let entry_price := ORB.entrySlippage bars i false
      { st with
        position := some (Position.mk ticker entry_price 1 Side.S date date)
        trades := st.trades ++ [Trade.make ticker entry_price 1 Side.S date "Open short breakout"] }
    else st
  else st

/-- The exit checks of OpenRangeBreakout.simulate_intraday on the current
bar: long take-profit at hi * 1.05, long stop at the range low, short
take-profit at lo * 0.95, short stop at the range high, else the floating
update from the bar close. -/
def ORB.exitStep (ticker : String) (date hi lo : ℚ) (bar_cur : Bar)
    (st : SimState) : StepOut :=
  match st.position with
  | none => StepOut.cont st
  | some pos =>
    if pos.side = Side.B then
      if bar_cur.High ≥ hi * 1.05 then
        closeAndMark ticker date st pos (hi * 1.05) Side.S "Close long: TP" true
      else if bar_cur.Low ≤ lo then
        closeAndMark ticker date st pos lo Side.S "Close long: SL" true
      else floatingMark st pos bar_cur.Close true
    else
      if bar_cur.Low ≤ lo * 0.95 then
        closeAndMark ticker date st pos (lo * 0.95) Side.B "Close short: TP" false
      else if bar_cur.High ≥ hi then
        closeAndMark ticker date st pos hi Side.B "Close short: SL" false
      else floatingMark st pos bar_cur.Close false

/-- One iteration of the OpenRangeBreakout.simulate_intraday bar loop at
index i: entry on a volume spike plus range breakout, then the exit
checks on the same bar. -/
def ORB.stepBar (ticker : String) (date : ℚ) (threshold hi lo : ℚ)
    (bars : List Bar) (i : ℕ) (st : SimState) : StepOut :=
  ORB.exitStep ticker date hi lo (bars.getD i default)
    (ORB.openStep ticker date threshold hi lo bars i st)

/-- The index loop of OpenRangeBreakout.simulate_intraday, running i from
1 while i < len(bars); the fuel argument equals the number of remaining
iterations and makes the recursion structural. -/
def ORB.loop (ticker : String) (date : ℚ) (threshold hi lo : ℚ) (bars : List Bar) :
    ℕ → ℕ → SimState → Except (PyErr × SimState) (ℚ × SimState)
  | 0, _, st => Except.ok (st.final_return, st)
  | Nat.succ n, i, st =>
    if i < bars.length then
      match ORB.stepBar ticker date threshold hi lo bars i st with
      | StepOut.cont st1 => ORB.loop ticker date threshold hi lo bars n (i + 1) st1
      | StepOut.stop st1 => Except.ok (st1.final_return, st1)
      | StepOut.fail e st1 => Except.error (e, st1)
    else Except.ok (st.final_return, st)

/-- The volume spike threshold of OpenRangeBreakout.simulate_intraday:
2 * (AvVol / 78) when the daily row carries an AvVol, else 1e6. -/
def ORB.volumeThreshold (av_vol : Option ℚ) : ℚ :=
  match av_vol with
  | some v => 2 * (v / 78)
  | none => 1000000

/-- OpenRangeBreakout.simulate_intraday (lines 210-295): fewer than two
bars returns 0.0 immediately; otherwise the first bar fixes the range and
the loop runs from index 1. -/
def ORB.simulate_intraday (ticker : String) (date : ℚ) (av_vol : Option ℚ)
    (bars : List Bar) : Except (PyErr × SimState) (ℚ × SimState) :=
  if bars.length < 2 then Except.ok (0, ⟨none, [], 0⟩)
  else
    ORB.loop ticker date (ORB.volumeThreshold av_vol) ((bars.getD 0 default).High)
      ((bars.getD 0 default).Low) bars (bars.length - 1) 1 ⟨none, [], 0⟩

/-! ### Theorems

Helper lemmas come first; the per-claim theorems follow. -/

/-- Evaluation of Position.reduce when the trade does not exceed the
position: no flip, volume decreases, side and price untouched. -/
theorem Position.reduce_eq_of_le (p : Position) (t : Trade)
    (hc : p.contract = t.contract) (hs : p.side ≠ t.side) (hv : t.volume ≤ p.volume) :
    Position.reduce p t =
      Except.ok ({ p with volume := p.volume - t.volume, last_update := t.timestamp },
        { t with realized_pnl :=
            if p.side = Side.B then (t.price - p.price) * t.volume
            else (p.price - t.price) * t.volume }) := by
  have hmin : min t.volume p.volume = t.volume := min_eq_left hv
  have hng : ¬ t.volume > p.volume := not_lt.mpr hv
  have habs : |p.volume - t.volume| = p.volume - t.volume := abs_of_nonneg (by linarith)
  simp [Position.reduce, hc, hs, hmin, hng, habs]

/-- Evaluation of Position.reduce when the trade exceeds the position:
the position flips to the trade side and price, with the leftover volume. -/
theorem Position.reduce_eq_of_lt (p : Position) (t : Trade)
    (hc : p.contract = t.contract) (hs : p.side ≠ t.side) (hv : p.volume < t.volume) :
    Position.reduce p t =
      Except.ok ({ p with
          price := t.price,
          side := t.side,
          volume := t.volume - p.volume,
          last_update := t.timestamp },
        { t with realized_pnl :=
            if p.side = Side.B then (t.price - p.price) * p.volume
            else (p.price - t.price) * p.volume }) := by
  have hmin : min t.volume p.volume = p.volume := min_eq_right hv.le
  have habs : |p.volume - t.volume| = t.volume - p.volume := by
    rw [abs_sub_comm]
    exact abs_of_nonneg (by linarith)
  simp [Position.reduce, hc, hs, hv, hmin, habs]

/-- Claim C1: for every open Position and every opposite-side reduce call
with trade.volume at most position.volume, Position.reduce stamps
trade.realized_pnl = (trade.price - avg_price) * trade.volume when the
position is long and (avg_price - trade.price) * trade.volume when it is
short, and leaves the position with volume = old_volume - trade.volume
and its side and average price unchanged. -/
theorem reduce_partial_close (p : Position) (t : Trade)
    (hc : p.contract = t.contract) (hs : p.side ≠ t.side) (hv : t.volume ≤ p.volume) :
    Position.reduce p t =
      Except.ok ({ p with volume := p.volume - t.volume, last_update := t.timestamp },
        { t with realized_pnl :=
            if p.side = Side.B then (t.price - p.price) * t.volume
            else (p.price - t.price) * t.volume }) :=
  Position.reduce_eq_of_le p t hc hs hv

/-- Witness for reduce_partial_close at a concrete long position reduced
by a smaller opposite-side trade. -/
theorem reduce_partial_close_witness :
    Position.reduce ⟨"SPY", 100, 10, Side.B, 0, 0⟩ (Trade.make "SPY" 110 4 Side.S 1 "") =
      Except.ok (⟨"SPY", 100, 6, Side.B, 0, 1⟩, ⟨"SPY", 110, 4, Side.S, 1, "", 40⟩) := by
  have h := reduce_partial_close ⟨"SPY", 100, 10, Side.B, 0, 0⟩
    (Trade.make "SPY" 110 4 Side.S 1 "") rfl (by decide) (by norm_num [Trade.make])
  rw [h]
  norm_num [Trade.make]

/-- Claim C3: an opposite-side reduce with trade.volume strictly above
position.volume flips the position: it ends with volume =
trade.volume - old_volume, the trade side, and the trade price as its
average price, while the stamped realized_pnl covers only the old volume
min(position.volume, trade.volume). -/
theorem reduce_flip (p : Position) (t : Trade)
    (hc : p.contract = t.contract) (hs : p.side ≠ t.side) (hv : p.volume < t.volume) :
    Position.reduce p t =
      Except.ok ({ p with
          price := t.price,
          side := t.side,
          volume := t.volume - p.volume,
          last_update := t.timestamp },
        { t with realized_pnl :=
            if p.side = Side.B then (t.price - p.price) * p.volume
            else (p.price - t.price) * p.volume }) :=
  Position.reduce_eq_of_lt p t hc hs hv

/-- Witness for reduce_flip at a concrete short position overwhelmed by a
larger buy. -/
theorem reduce_flip_witness :
    Position.reduce ⟨"SPY", 100, 3, Side.S, 0, 0⟩ (Trade.make "SPY" 90 10 Side.B 1 "") =
      Except.ok (⟨"SPY", 90, 7, Side.B, 0, 1⟩, ⟨"SPY", 90, 10, Side.B, 1, "", 30⟩) := by
  have h := reduce_flip ⟨"SPY", 100, 3, Side.S, 0, 0⟩
    (Trade.make "SPY" 90 10 Side.B 1 "") rfl (by decide) (by norm_num [Trade.make])
  rw [h]
  norm_num [Trade.make]
  decide

/-- Claim C5: add raises ValueError on a different contract or a
different side, reduce raises ValueError on a different contract or the
same side; in each case an error is returned and no updated position is
produced, so the trade is never silently applied. -/
theorem ledger_rejects_mismatched_trades (p : Position) (t : Trade) :
    (p.contract ≠ t.contract →
      Position.add p t =
        Except.error (PyErr.valueError "Cannot add to the position: different product.") ∧
      Position.reduce p t =
        Except.error (PyErr.valueError "Cannot reduce the position: different product.")) ∧
    (p.contract = t.contract → p.side ≠ t.side →
      Position.add p t =
        Except.error (PyErr.valueError "Cannot add to the position: trade side differs from the open position.")) ∧
    (p.contract = t.contract → p.side = t.side →
      Position.reduce p t =
        Except.error (PyErr.valueError "Cannot reduce the position: same side trade.")) := by
  refine ⟨fun h => ⟨?_, ?_⟩, fun hc hs => ?_, fun hc hs => ?_⟩ <;>
    simp [Position.add, Position.reduce, *]

/-- Witness for ledger_rejects_mismatched_trades: a wrong-symbol add and
a same-side reduce both fail with the ValueError of the source. -/
theorem ledger_rejects_mismatched_trades_witness :
    Position.add ⟨"SPY", 100, 10, Side.B, 0, 0⟩ (Trade.make "QQQ" 1 1 Side.B 0 "") =
      Except.error (PyErr.valueError "Cannot add to the position: different product.") ∧
    Position.reduce ⟨"SPY", 100, 10, Side.B, 0, 0⟩ (Trade.make "SPY" 1 1 Side.B 0 "") =
      Except.error (PyErr.valueError "Cannot reduce the position: same side trade.") :=
  ⟨((ledger_rejects_mismatched_trades ⟨"SPY", 100, 10, Side.B, 0, 0⟩
      (Trade.make "QQQ" 1 1 Side.B 0 "")).1 (by decide)).1,
    (ledger_rejects_mismatched_trades ⟨"SPY", 100, 10, Side.B, 0, 0⟩
      (Trade.make "SPY" 1 1 Side.B 0 "")).2.2 rfl rfl⟩

/-- Helper: the concrete example reduction of claim C4, evaluated. -/
theorem reduce_example_eval :
    Position.reduce ⟨"X", 100, 10, Side.B, 0, 0⟩ (Trade.make "X" 110 10 Side.S 1 "") =
      Except.ok (⟨"X", 100, 0, Side.B, 0, 1⟩, ⟨"X", 110, 10, Side.S, 1, "", 100⟩) := by
  have h := Position.reduce_eq_of_le ⟨"X", 100, 10, Side.B, 0, 0⟩
    (Trade.make "X" 110 10 Side.S 1 "") rfl (by decide) (by norm_num [Trade.make])
  rw [h]
  norm_num [Trade.make]

/-- Claim C4 counterexample: reducing Position(side B, avg_price 100,
volume 10) with Trade(side S, price 110, volume 10) stamps
realized_pnl = 100 and empties the position, but the resulting trade
carries no realized_return attribute at all, so reading
trade.realized_return is an AttributeError, not 0.10. -/
theorem reduce_realized_return_missing_example :
    Position.reduce ⟨"X", 100, 10, Side.B, 0, 0⟩ (Trade.make "X" 110 10 Side.S 1 "") =
      Except.ok (⟨"X", 100, 0, Side.B, 0, 1⟩, ⟨"X", 110, 10, Side.S, 1, "", 100⟩) ∧
    Trade.getattr ⟨"X", 110, 10, Side.S, 1, "", 100⟩ "realized_return" = none :=
  ⟨reduce_example_eval, rfl⟩

/-- Claim C4 (amended): Trade objects carry a realized_pnl attribute but
never a realized_return attribute, and Position.reduce stamps only
realized_pnl; in the example reduction the stamped realized_pnl is 100
and the position is left with volume 0. -/
theorem reduce_stamps_only_realized_pnl :
    (∀ t : Trade, Trade.getattr t "realized_return" = none) ∧
    (∀ t : Trade, Trade.getattr t "realized_pnl" = some (PyVal.num t.realized_pnl)) ∧
    Position.reduce ⟨"X", 100, 10, Side.B, 0, 0⟩ (Trade.make "X" 110 10 Side.S 1 "") =
      Except.ok (⟨"X", 100, 0, Side.B, 0, 1⟩, ⟨"X", 110, 10, Side.S, 1, "", 100⟩) :=
  ⟨fun _ => rfl, fun _ => rfl, reduce_example_eval⟩

/-- Claim C2: starting from a Position opened with a positive volume, any
finite sequence of same-symbol same-side add calls with positive volumes
succeeds and leaves the volume-weighted mean of all fill prices, the
opening fill included, as the average price, and the sum of all fill
volumes as the volume; side and symbol are unchanged. -/
theorem add_sequence_weighted_mean (trades : List Trade) (p : Position)
    (hv : 0 < p.volume)
    (hall : ∀ t ∈ trades, t.contract = p.contract ∧ t.side = p.side ∧ 0 < t.volume) :
    ∃ p1, Position.addAll p trades = Except.ok p1 ∧
      p1.contract = p.contract ∧ p1.side = p.side ∧
      p1.volume = p.volume + (trades.map Trade.volume).sum ∧
      p1.price = (p.price * p.volume + (trades.map (fun t => t.price * t.volume)).sum) /
        (p.volume + (trades.map Trade.volume).sum) := by
  induction trades generalizing p with
  | nil =>
    refine ⟨p, rfl, rfl, rfl, by simp, ?_⟩
    have h0 : p.volume ≠ 0 := ne_of_gt hv
    field_simp
  | cons t ts ih =>
    obtain ⟨hct, hst, hvt⟩ := hall t (List.mem_cons_self t ts)
    have hpos : (0 : ℚ) < p.volume + t.volume := by linarith
    have hnz : p.volume + t.volume ≠ 0 := ne_of_gt hpos
    obtain ⟨pf, heq, hc1, hs1, hvol, hpr⟩ := ih
      { p with
        price := (p.price * p.volume + t.price * t.volume) / (p.volume + t.volume),
        volume := p.volume + t.volume,
        last_update := t.timestamp }
      hpos
      (fun t1 ht1 => hall t1 (List.mem_cons_of_mem t ht1))
    have hadd : Position.add p t = Except.ok
        { p with
          price := (p.price * p.volume + t.price * t.volume) / (p.volume + t.volume),
          volume := p.volume + t.volume,
          last_update := t.timestamp } := by
      simp [Position.add, hct, hst, hnz]
    refine ⟨pf, ?_, hc1, hs1, ?_, ?_⟩
    · simp [Position.addAll, hadd, heq]
    · rw [hvol]
      simp only [List.map_cons, List.sum_cons]
      ring
    · rw [hpr]
      have hmul : (p.price * p.volume + t.price * t.volume) / (p.volume + t.volume) *
          (p.volume + t.volume) = p.price * p.volume + t.price * t.volume :=
        div_mul_cancel₀ _ hnz
      simp only [List.map_cons, List.sum_cons]
      rw [hmul, add_assoc, add_assoc]

/-- Witness for add_sequence_weighted_mean: opening 10 at 100 and adding
10 at 110 then 20 at 120 gives volume 40 at average price 112.5. -/
theorem add_sequence_weighted_mean_witness :
    (Position.addAll ⟨"SPY", 100, 10, Side.B, 0, 0⟩
      [Trade.make "SPY" 110 10 Side.B 1 "", Trade.make "SPY" 120 20 Side.B 2 ""]).map
        Position.volume = Except.ok 40 ∧
    (Position.addAll ⟨"SPY", 100, 10, Side.B, 0, 0⟩
      [Trade.make "SPY" 110 10 Side.B 1 "", Trade.make "SPY" 120 20 Side.B 2 ""]).map
        Position.price = Except.ok (225 / 2) := by
  obtain ⟨pf, heq, hc, hs, hvol, hpr⟩ := add_sequence_weighted_mean
    [Trade.make "SPY" 110 10 Side.B 1 "", Trade.make "SPY" 120 20 Side.B 2 ""]
    ⟨"SPY", 100, 10, Side.B, 0, 0⟩ (by norm_num)
    (by
      intro t ht
      simp only [List.mem_cons, List.not_mem_nil, or_false] at ht
      rcases ht with rfl | rfl <;> exact ⟨rfl, rfl, by norm_num [Trade.make]⟩)
  rw [heq]
  constructor
  · simp only [Except.map]
    rw [hvol]
    norm_num [Trade.make]
  · simp only [Except.map]
    rw [hpr]
    norm_num [Trade.make]

/-- Row-level characterization of the win_rate counting loop. -/
theorem foldl_tally_eq (row : List ℚ) (wl : ℕ × ℕ) :
    row.foldl tally wl =
      (wl.1 + (row.filter (fun r => decide (0 < r))).length,
       wl.2 + (row.filter (fun r => decide (r < 0))).length) := by
  induction row generalizing wl with
  | nil => simp
  | cons r rs ih =>
    rw [List.foldl_cons, ih]
    rcases lt_trichotomy r 0 with h | h | h
    · have h1 : ¬ (r > 0) := not_lt.mpr h.le
      simp only [tally, if_neg h1, if_pos h, List.filter_cons]
      simp [h, h1]
      omega
    · subst h
      simp [tally, List.filter_cons]
    · have h1 : ¬ (r < 0) := not_lt.mpr h.le
      simp only [tally, if_pos h, List.filter_cons]
      simp [h, h1]
      omega

/-- The nested loops of win_rate count exactly the strictly positive and
strictly negative entries of the matrix. -/
theorem win_lose_counts_eq (ds : List (List ℚ)) :
    win_lose_counts ds = (specPositiveCount ds, specNegativeCount ds) := by
  suffices h : ∀ wl : ℕ × ℕ, ds.foldl (fun wl row => row.foldl tally wl) wl =
      (wl.1 + specPositiveCount ds, wl.2 + specNegativeCount ds) by
    simpa [win_lose_counts] using h (0, 0)
  induction ds with
  | nil => simp [specPositiveCount, specNegativeCount]
  | cons row rest ih =>
    intro wl
    rw [List.foldl_cons, foldl_tally_eq, ih]
    simp [specPositiveCount, specNegativeCount]
    omega

/-- Claim C6 counterexample: on an all-zero result matrix the Python
division win_count / (win_count + lose_count) divides zero by zero, so
win_rate raises ZeroDivisionError instead of returning 0.0. -/
theorem win_rate_all_zero_fails :
    win_rate [[0, 0], [0]] = Except.error PyErr.zeroDivisionError := rfl

/-- Claim C6 (amended): with P strictly positive and N strictly negative
entries (zeros counted in neither), win_rate returns 100 * P / (P + N)
when P + N > 0, and raises ZeroDivisionError when P + N = 0 - in
particular on an all-zero matrix - rather than returning 0.0. -/
theorem win_rate_formula (ds : List (List ℚ)) :
    (specPositiveCount ds + specNegativeCount ds = 0 →
      win_rate ds = Except.error PyErr.zeroDivisionError) ∧
    (specPositiveCount ds + specNegativeCount ds ≠ 0 →
      win_rate ds = Except.ok (100 * (specPositiveCount ds : ℚ) /
        ((specPositiveCount ds : ℚ) + (specNegativeCount ds : ℚ)))) := by
  constructor <;> intro h
  · simp [win_rate, win_lose_counts_eq, h]
  · simp [win_rate, win_lose_counts_eq, h]
    ring

/-- Witness for win_rate_formula: one winner and one loser give a 50
percent win rate. -/
theorem win_rate_formula_witness : win_rate [[5, -2], [0]] = Except.ok 50 := by
  have h := (win_rate_formula [[5, -2], [0]]).2 (by decide)
  rw [h]
  norm_num [specPositiveCount, specNegativeCount, List.filter]

/-- The metric loops build their collected list by appending each row
filter to the accumulator, which equals the filtered flattening. -/
theorem foldl_append_filter (p : ℚ → Bool) (ds : List (List ℚ)) (acc : List ℚ) :
    ds.foldl (fun acc row => acc ++ row.filter p) acc =
      acc ++ (ds.map (fun row => row.filter p)).flatten := by
  induction ds generalizing acc with
  | nil => simp
  | cons row rest ih => simp [ih, List.append_assoc]

/-- Claim C7 counterexample: with no strictly positive entry
mean_ret_winner divides by a zero count and raises ZeroDivisionError
instead of returning 0, and likewise mean_ret_loser with no strictly
negative entry. -/
theorem mean_ret_empty_fails :
    mean_ret_winner [[-1], [0]] = Except.error PyErr.zeroDivisionError ∧
    mean_ret_loser [[1], [0]] = Except.error PyErr.zeroDivisionError :=
  ⟨rfl, rfl⟩

/-- Claim C7 (amended): mean_ret_winner returns the arithmetic mean of
the strictly positive entries and mean_ret_loser the arithmetic mean of
the strictly negative entries whenever the respective set is nonempty;
on an empty set each raises ZeroDivisionError rather than returning 0. -/
theorem mean_ret_formula (ds : List (List ℚ)) :
    (specWinners ds = [] → mean_ret_winner ds = Except.error PyErr.zeroDivisionError) ∧
    (specWinners ds ≠ [] →
      mean_ret_winner ds = Except.ok ((specWinners ds).sum / ((specWinners ds).length : ℚ))) ∧
    (specLosers ds = [] → mean_ret_loser ds = Except.error PyErr.zeroDivisionError) ∧
    (specLosers ds ≠ [] →
      mean_ret_loser ds = Except.ok ((specLosers ds).sum / ((specLosers ds).length : ℚ))) := by
  have hw : ds.foldl (fun acc row => acc ++ row.filter (fun r => decide (r > 0))) [] =
      specWinners ds := by
    simpa [specWinners] using foldl_append_filter (fun r => decide (r > 0)) ds []
  have hl : ds.foldl (fun acc row => acc ++ row.filter (fun r => decide (r < 0))) [] =
      specLosers ds := by
    simpa [specLosers] using foldl_append_filter (fun r => decide (r < 0)) ds []
  refine ⟨fun h => ?_, fun h => ?_, fun h => ?_, fun h => ?_⟩ <;>
    simp [mean_ret_winner, mean_ret_loser, hw, hl, h, List.length_eq_zero]

/-- Witness for mean_ret_formula: with entries 5, -2 and 0 the mean
winner return is 5 and the mean loser return is -2. -/
theorem mean_ret_formula_witness :
    mean_ret_winner [[5, -2], [0]] = Except.ok 5 ∧
    mean_ret_loser [[5, -2], [0]] = Except.ok (-2) := by
  have h1 := (mean_ret_formula [[5, -2], [0]]).2.1 (by decide)
  have h2 := (mean_ret_formula [[5, -2], [0]]).2.2.2 (by decide)
  rw [h1, h2]
  norm_num [specWinners, specLosers, List.filter]

/-- Claim C8 counterexample: in the initial draft loop
(ib_orb_bktest_initial.py), a broker error for an item makes the loop
continue without recording anything, so the result row has no entry at
all for that symbol, rather than a zero return. -/
theorem initial_backtest_drops_errored_item :
    backtestInitialDay constZeroSim [("AAPL", FetchOutcome.err)] = [] ∧
    List.lookup "AAPL" (backtestInitialDay constZeroSim [("AAPL", FetchOutcome.err)]) = none :=
  ⟨rfl, rfl⟩

/-- Helper: the initial draft loop drops an errored, missing or empty
item, concatenating what it records before and after it. -/
theorem backtestInitialDay_skip (sim : List Bar → ℚ)
    (pre post : List (String × FetchOutcome)) (tk : String) (o : FetchOutcome)
    (ho : o = FetchOutcome.err ∨ o = FetchOutcome.noData ∨ o = FetchOutcome.bars []) :
    backtestInitialDay sim (pre ++ (tk, o) :: post) =
      backtestInitialDay sim pre ++ backtestInitialDay sim post := by
  induction pre with
  | nil => rcases ho with rfl | rfl | rfl <;> simp [backtestInitialDay]
  | cons a rest ih =>
    obtain ⟨tk1, o1⟩ := a
    cases o1 with
    | err => simpa [backtestInitialDay] using ih
    | noData => simpa [backtestInitialDay] using ih
    | bars bs =>
      by_cases hb : bs.isEmpty <;> simp [backtestInitialDay, hb, ih]

/-- Claim C8 (amended): in Backtester.run a broker error or missing or
empty bar data for an item records a return of exactly 0 for that symbol
and date and the loop continues, leaving every other entry what it would
have been anyway; in the initial draft loop the same conditions instead
skip the item entirely, so that symbol gets no entry for that date. -/
theorem error_item_recording (sim : List Bar → ℚ) (pre post : List (String × FetchOutcome))
    (tk : String) (o : FetchOutcome) (d : String)
    (restDates : List (String × List (String × FetchOutcome)))
    (ho : o = FetchOutcome.err ∨ o = FetchOutcome.noData ∨ o = FetchOutcome.bars []) :
    Backtester.runDay sim (pre ++ (tk, o) :: post) =
      Backtester.runDay sim pre ++ (tk, 0) :: Backtester.runDay sim post ∧
    Backtester.run sim ((d, pre ++ (tk, o) :: post) :: restDates) =
      (d, Backtester.runDay sim pre ++ (tk, 0) :: Backtester.runDay sim post) ::
        Backtester.run sim restDates ∧
    backtestInitialDay sim (pre ++ (tk, o) :: post) =
      backtestInitialDay sim pre ++ backtestInitialDay sim post := by
  have hzero : outcomeResult sim o = 0 := by
    rcases ho with rfl | rfl | rfl <;> simp [outcomeResult]
  have hday : Backtester.runDay sim (pre ++ (tk, o) :: post) =
      Backtester.runDay sim pre ++ (tk, 0) :: Backtester.runDay sim post := by
    simp [Backtester.runDay, hzero]
  exact ⟨hday, by simp [Backtester.run, hday],
    backtestInitialDay_skip sim pre post tk o ho⟩

/-- Witness for error_item_recording on a two-item day whose first item
errors: the rewritten loop records 0 for it and continues; the initial
draft drops it and keeps only the second item. -/
theorem error_item_recording_witness :
    Backtester.runDay constZeroSim
        [("AAPL", FetchOutcome.err), ("TSLA", FetchOutcome.bars [default])] =
      [("AAPL", 0), ("TSLA", 0)] ∧
    backtestInitialDay constZeroSim
        [("AAPL", FetchOutcome.err), ("TSLA", FetchOutcome.bars [default])] =
      [("TSLA", 0)] := by
  have h := error_item_recording constZeroSim [] [("TSLA", FetchOutcome.bars [default])]
    "AAPL" FetchOutcome.err "20241209" [] (Or.inl rfl)
  simp only [List.nil_append] at h
  exact ⟨h.1.trans rfl, h.2.2.trans rfl⟩

/-- No Position object ever has an avg_price attribute: the constructor
assigns contract, price, volume, side, open_timestamp and last_update
only. -/
theorem Position.getattr_avg_price (p : Position) :
    Position.getattr p "avg_price" = none := rfl

/-- Position.reduce succeeds whenever the contract matches and the sides
differ: those are its only two raising checks. -/
theorem Position.reduce_isOk (p : Position) (t : Trade)
    (hc : p.contract = t.contract) (hs : p.side ≠ t.side) :
    ∃ pr : Position × Trade, Position.reduce p t = Except.ok pr := by
  unfold Position.reduce
  rw [if_neg (by simp [hc]), if_neg hs]
  exact ⟨_, rfl⟩

/-- The floating update always raises AttributeError: it reads the
nonexistent position.avg_price before anything else. -/
theorem floatingMark_fails (st : SimState) (pos : Position) (price : ℚ) (il : Bool) :
    floatingMark st pos price il = StepOut.fail PyErr.attributeError st := rfl

/-- The LinReg closing sequence always raises AttributeError after a
well-formed reduce: the realized-return division reads the nonexistent
position.avg_price. The stamped closing trade is already in the log of
the failing state. -/
theorem linreg_closeAndMark_fails (ticker : String) (date : ℚ) (st : SimState)
    (pos : Position) (cp : ℚ) (cs : Side) (cm : String) (il : Bool)
    (hc : pos.contract = ticker) (hs : pos.side ≠ cs) :
    ∃ pos1 tr1, LinReg.closeAndMark ticker date st pos cp cs cm il =
      StepOut.fail PyErr.attributeError
        { st with position := some pos1, trades := st.trades ++ [tr1] } := by
  obtain ⟨⟨pos1, tr1⟩, hred⟩ := Position.reduce_isOk pos
    (Trade.make ticker cp pos.volume cs date cm) hc hs
  refine ⟨pos1, tr1, ?_⟩
  simp only [LinReg.closeAndMark, hred, Position.getattr_avg_price]

/-- The ORB closing sequence always raises AttributeError after a
well-formed reduce, exactly like the LinReg one. -/
theorem orb_closeAndMark_fails (ticker : String) (date : ℚ) (st : SimState)
    (pos : Position) (cp : ℚ) (cs : Side) (cm : String) (il : Bool)
    (hc : pos.contract = ticker) (hs : pos.side ≠ cs) :
    ∃ pos1 tr1, ORB.closeAndMark ticker date st pos cp cs cm il =
      StepOut.fail PyErr.attributeError
        { st with position := some pos1, trades := st.trades ++ [tr1] } := by
  obtain ⟨⟨pos1, tr1⟩, hred⟩ := Position.reduce_isOk pos
    (Trade.make ticker cp pos.volume cs date cm) hc hs
  refine ⟨pos1, tr1, ?_⟩
  simp only [ORB.closeAndMark, hred, Position.getattr_avg_price]

/-- With an open position whose contract matches the ticker, the LinReg
exit step always raises AttributeError on every branch: take-profit and
stop-loss read position.avg_price after reducing, the floating branch
reads it directly. The trade log never shrinks. -/
theorem linreg_exitStep_some_fails (ticker : String) (date : ℚ) (ps : LRParams)
    (st : SimState) (price : ℚ) (pos : Position)
    (hpos : st.position = some pos) (hc : pos.contract = ticker) :
    ∃ st1, LinReg.exitStep ticker date ps st price = StepOut.fail PyErr.attributeError st1 ∧
      st.trades.length ≤ st1.trades.length := by
  obtain ⟨sp, str, sfr⟩ := st
  have hp : sp = some pos := hpos
  subst hp
  obtain ⟨lrm, lrl, sgm, sgl⟩ := ps
  by_cases hB : pos.side = Side.B
  · cases lrm with
    | none =>
      exact ⟨⟨some pos, str, sfr⟩, by simp [LinReg.exitStep, hB, floatingMark_fails],
        le_refl _⟩
    | some lm =>
      by_cases htp : price ≥ lm
      · obtain ⟨pos1, tr1, hfail⟩ := linreg_closeAndMark_fails ticker date
          ⟨some pos, str, sfr⟩ pos lm Side.S "Close long: TP" true hc (by simp [hB])
        exact ⟨_, by simp only [LinReg.exitStep, hB, if_true, htp]; exact hfail, by simp⟩
      · cases sgm with
        | none =>
          exact ⟨⟨some pos, str, sfr⟩,
            by simp [LinReg.exitStep, hB, htp, floatingMark_fails], le_refl _⟩
        | some sm =>
          by_cases hsl : price ≤ lm - 3.5 * sm
          · obtain ⟨pos1, tr1, hfail⟩ := linreg_closeAndMark_fails ticker date
              ⟨some pos, str, sfr⟩ pos (lm - 3.5 * sm) Side.S "Close long: SL" true hc
              (by simp [hB])
            exact ⟨_, by simp only [LinReg.exitStep, hB, htp, hsl]; simp; exact hfail,
              by simp⟩
          · exact ⟨⟨some pos, str, sfr⟩,
              by simp [LinReg.exitStep, hB, htp, hsl, floatingMark_fails], le_refl _⟩
  · cases lrm with
    | none =>
      exact ⟨⟨some pos, str, sfr⟩, by simp [LinReg.exitStep, hB, floatingMark_fails],
        le_refl _⟩
    | some lm =>
      by_cases htp : price ≤ lm
      · obtain ⟨pos1, tr1, hfail⟩ := linreg_closeAndMark_fails ticker date
          ⟨some pos, str, sfr⟩ pos lm Side.B "Close short: TP" false hc hB
        exact ⟨_, by simp only [LinReg.exitStep, hB, htp]; simp [hB]; exact hfail, by simp⟩
      · cases sgm with
        | none =>
          exact ⟨⟨some pos, str, sfr⟩,
            by simp [LinReg.exitStep, hB, htp, floatingMark_fails], le_refl _⟩
        | some sm =>
          by_cases hsl : price ≥ lm + 3.5 * sm
          · obtain ⟨pos1, tr1, hfail⟩ := linreg_closeAndMark_fails ticker date
              ⟨some pos, str, sfr⟩ pos (lm + 3.5 * sm) Side.B "Close short: SL" false hc hB
            exact ⟨_, by simp only [LinReg.exitStep, hB, htp, hsl]; simp [hB]; exact hfail,
              by simp⟩
          · exact ⟨⟨some pos, str, sfr⟩,
              by simp [LinReg.exitStep, hB, htp, hsl, floatingMark_fails], le_refl _⟩

/-- With an open position whose contract matches the ticker, the ORB exit
checks always raise AttributeError on every branch, as in the other
draft. -/
theorem orb_exitStep_some_fails (ticker : String) (date hi lo : ℚ) (b : Bar)
    (st : SimState) (pos : Position)
    (hpos : st.position = some pos) (hc : pos.contract = ticker) :
    ∃ st1, ORB.exitStep ticker date hi lo b st = StepOut.fail PyErr.attributeError st1 ∧
      st.trades.length ≤ st1.trades.length := by
  obtain ⟨sp, str, sfr⟩ := st
  have hp : sp = some pos := hpos
  subst hp
  by_cases hB : pos.side = Side.B
  · by_cases h1 : b.High ≥ hi * 1.05
    · obtain ⟨pos1, tr1, hfail⟩ := orb_closeAndMark_fails ticker date
        ⟨some pos, str, sfr⟩ pos (hi * 1.05) Side.S "Close long: TP" true hc (by simp [hB])
      exact ⟨_, by simp only [ORB.exitStep, hB, h1]; simp; exact hfail, by simp⟩
    · by_cases h2 : b.Low ≤ lo
      · obtain ⟨pos1, tr1, hfail⟩ := orb_closeAndMark_fails ticker date
          ⟨some pos, str, sfr⟩ pos lo Side.S "Close long: SL" true hc (by simp [hB])
        exact ⟨_, by simp only [ORB.exitStep, hB, h1, h2]; simp; exact hfail, by simp⟩
      · exact ⟨⟨some pos, str, sfr⟩,
          by simp [ORB.exitStep, hB, h1, h2, floatingMark_fails], le_refl _⟩
  · by_cases h1 : b.Low ≤ lo * 0.95
    · obtain ⟨pos1, tr1, hfail⟩ := orb_closeAndMark_fails ticker date
        ⟨some pos, str, sfr⟩ pos (lo * 0.95) Side.B "Close short: TP" false hc hB
      exact ⟨_, by simp only [ORB.exitStep, hB, h1]; simp [hB]; exact hfail, by simp⟩
    · by_cases h2 : b.High ≥ hi
      · obtain ⟨pos1, tr1, hfail⟩ := orb_closeAndMark_fails ticker date
          ⟨some pos, str, sfr⟩ pos hi Side.B "Close short: SL" false hc hB
        exact ⟨_, by simp only [ORB.exitStep, hB, h1, h2]; simp [hB]; exact hfail, by simp⟩
      · exact ⟨⟨some pos, str, sfr⟩,
          by simp [ORB.exitStep, hB, h1, h2, floatingMark_fails], le_refl _⟩

/-- With no open position the LinReg exit step just continues. -/
theorem linreg_exitStep_none (ticker : String) (date : ℚ) (ps : LRParams)
    (st : SimState) (price : ℚ) (h1 : st.position = none) :
    LinReg.exitStep ticker date ps st price = StepOut.cont st := by
  obtain ⟨sp, str, sfr⟩ := st
  have hp : sp = none := h1
  subst hp
  simp [LinReg.exitStep]

/-- With no open position the ORB exit checks just continue. -/
theorem orb_exitStep_none (ticker : String) (date hi lo : ℚ) (b : Bar)
    (st : SimState) (h1 : st.position = none) :
    ORB.exitStep ticker date hi lo b st = StepOut.cont st := by
  obtain ⟨sp, str, sfr⟩ := st
  have hp : sp = none := h1
  subst hp
  simp [ORB.exitStep]

/-- Starting flat, the ORB entry step either leaves the state untouched
or opens a position for the requested ticker, logging one opening trade. -/
theorem ORB.openStep_cases (ticker : String) (date threshold hi lo : ℚ) (bars : List Bar)
    (i : ℕ) (st : SimState) (h1 : st.position = none) :
    ORB.openStep ticker date threshold hi lo bars i st = st ∨
    ∃ P T, Position.contract P = ticker ∧
      ORB.openStep ticker date threshold hi lo bars i st =
        { st with position := some P, trades := st.trades ++ [T] } := by
  by_cases hv : (bars.getD (i - 1) default).Volume > threshold
  · by_cases hH : (bars.getD i default).High > hi
    · refine Or.inr ⟨Position.mk ticker (ORB.entrySlippage bars i true) 1 Side.B date date,
        Trade.make ticker (ORB.entrySlippage bars i true) 1 Side.B date "Open long breakout",
        rfl, ?_⟩
      unfold ORB.openStep
      simp only [h1, Option.isSome_none, Bool.false_eq_true, if_false, if_pos hv, if_pos hH]
    · by_cases hL : (bars.getD i default).Low < lo
      · refine Or.inr ⟨Position.mk ticker (ORB.entrySlippage bars i false) 1 Side.S date date,
          Trade.make ticker (ORB.entrySlippage bars i false) 1 Side.S date "Open short breakout",
          rfl, ?_⟩
        unfold ORB.openStep
        simp only [h1, Option.isSome_none, Bool.false_eq_true, if_false, if_pos hv,
          if_neg hH, if_pos hL]
      · refine Or.inl ?_
        unfold ORB.openStep
        simp only [h1, Option.isSome_none, Bool.false_eq_true, if_false, if_pos hv,
          if_neg hH, if_neg hL]
  · refine Or.inl ?_
    unfold ORB.openStep
    simp only [h1, Option.isSome_none, Bool.false_eq_true, if_false, if_neg hv]

/-- Dichotomy for the LinReg bar loop started flat: either no entry
predicate ever fires and the loop returns with the state untouched, or a
position is opened at some bar and the loop raises AttributeError on
that same bar, its trade log strictly grown. -/
theorem LinReg.runBars_dichotomy (ticker : String) (date volume : ℚ) (ps : LRParams)
    (closes : List ℚ) : ∀ st : SimState, st.position = none →
    LinReg.runBars ticker date volume ps st closes = Except.ok (st.final_return, st) ∨
    ∃ st1, LinReg.runBars ticker date volume ps st closes =
      Except.error (PyErr.attributeError, st1) ∧ st.trades.length < st1.trades.length := by
  induction closes with
  | nil => intro st h1; exact Or.inl rfl
  | cons price rest ih =>
    intro st h1
    cases hsig : LinReg.openSignal ps price with
    | none =>
      have hopen : LinReg.openStep ticker date volume ps st price = st := by
        simp [LinReg.openStep, h1, hsig]
      have hexit := linreg_exitStep_none ticker date ps st price h1
      rcases ih st h1 with hok | ⟨st1, herr, hlen⟩
      · exact Or.inl (by simp only [LinReg.runBars, hopen, hexit]; exact hok)
      · exact Or.inr ⟨st1, by simp only [LinReg.runBars, hopen, hexit]; exact herr, hlen⟩
    | some side =>
      cases side with
      | B =>
        have hopen : LinReg.openStep ticker date volume ps st price =
            { st with
              position := some (Position.mk ticker price volume Side.B date date)
              trades := st.trades ++
                [Trade.make ticker price volume Side.B date "Open long LR strategy intraday"] } := by
          simp [LinReg.openStep, h1, hsig]
        obtain ⟨st1, hex, hlen⟩ := linreg_exitStep_some_fails ticker date ps
          { st with
            position := some (Position.mk ticker price volume Side.B date date)
            trades := st.trades ++
              [Trade.make ticker price volume Side.B date "Open long LR strategy intraday"] }
          price (Position.mk ticker price volume Side.B date date) rfl rfl
        refine Or.inr ⟨st1, ?_, ?_⟩
        · simp only [LinReg.runBars, hopen, hex]
        · have h2 : st.trades.length + 1 ≤ st1.trades.length := by simpa using hlen
          omega
      | S =>
        have hopen : LinReg.openStep ticker date volume ps st price =
            { st with
              position := some (Position.mk ticker price volume Side.S date date)
              trades := st.trades ++
                [Trade.make ticker price volume Side.S date "Open short LR strategy intraday"] } := by
          simp [LinReg.openStep, h1, hsig]
        obtain ⟨st1, hex, hlen⟩ := linreg_exitStep_some_fails ticker date ps
          { st with
            position := some (Position.mk ticker price volume Side.S date date)
            trades := st.trades ++
              [Trade.make ticker price volume Side.S date "Open short LR strategy intraday"] }
          price (Position.mk ticker price volume Side.S date date) rfl rfl
        refine Or.inr ⟨st1, ?_, ?_⟩
        · simp only [LinReg.runBars, hopen, hex]
        · have h2 : st.trades.length + 1 ≤ st1.trades.length := by simpa using hlen
          omega

/-- Dichotomy for the ORB index loop started flat: either no entry fires
and the loop returns with the state untouched, or a position is opened at
some bar and the loop raises AttributeError on that same bar, its trade
log strictly grown. -/
theorem ORB.loop_dichotomy (ticker : String) (date threshold hi lo : ℚ) (bars : List Bar)
    (n : ℕ) : ∀ (i : ℕ) (st : SimState), st.position = none →
    ORB.loop ticker date threshold hi lo bars n i st = Except.ok (st.final_return, st) ∨
    ∃ st1, ORB.loop ticker date threshold hi lo bars n i st =
      Except.error (PyErr.attributeError, st1) ∧ st.trades.length < st1.trades.length := by
  induction n with
  | zero => intro i st h1; exact Or.inl rfl
  | succ n ih =>
    intro i st h1
    by_cases hib : i < bars.length
    · rcases ORB.openStep_cases ticker date threshold hi lo bars i st h1 with
        hopen | ⟨P, T, hPc, hopen⟩
      · have hexit := orb_exitStep_none ticker date hi lo (bars.getD i default) st h1
        have hstep : ORB.stepBar ticker date threshold hi lo bars i st = StepOut.cont st := by
          simp only [ORB.stepBar, hopen, hexit]
        rcases ih (i + 1) st h1 with hok | ⟨st1, herr, hlen⟩
        · exact Or.inl (by simp only [ORB.loop, hib, if_true, hstep]; exact hok)
        · exact Or.inr ⟨st1, by simp only [ORB.loop, hib, if_true, hstep]; exact herr, hlen⟩
      · obtain ⟨st1, hex, hlen⟩ := orb_exitStep_some_fails ticker date hi lo
          (bars.getD i default) { st with position := some P, trades := st.trades ++ [T] }
          P rfl hPc
        have hstep : ORB.stepBar ticker date threshold hi lo bars i st =
            StepOut.fail PyErr.attributeError st1 := by
          simp only [ORB.stepBar, hopen]
          exact hex
        refine Or.inr ⟨st1, ?_, ?_⟩
        · simp only [ORB.loop, hib, if_true, hstep]
        · have h2 : st.trades.length + 1 ≤ st1.trades.length := by simpa using hlen
          omega
    · exact Or.inl (by simp [ORB.loop, hib])

/-- Helper: the concrete LinReg run with both sigmas zero, band centers
100 and a single bar closing at 95: the buy predicate fires, a long
position is opened and logged, the same-bar stop-loss closes it, and the
realized-return division then raises AttributeError reading
position.avg_price. -/
theorem linreg_sigma_zero_eval :
    LinReg.simulate_intraday "AAPL" 0 1 ⟨some 100, some 100, some 0, some 0⟩ none [] [95] =
      Except.error (PyErr.attributeError,
        ⟨some ⟨"AAPL", 95, 0, Side.B, 0, 0⟩,
         [⟨"AAPL", 95, 1, Side.B, 0, "Open long LR strategy intraday", 0⟩,
          ⟨"AAPL", 100, 1, Side.S, 0, "Close long: SL", 5⟩], 0⟩) := by
  norm_num +decide [LinReg.simulate_intraday, LinReg.runBars, LinReg.openStep,
    LinReg.openSignal, LinReg.exitStep, LinReg.closeAndMark, floatingMark,
    Position.reduce, Position.getattr, Position.attrs, Trade.make, Trade.attrs, List.lookup]
  rfl

/-- Claim C9: with both sigmas equal to zero the threshold-crossing entry
predicates are not disabled: at band centers 100 a bar closing at 95 is
merely beyond the band center, yet the buy predicate fires
(95 < 100 - 2 * 0 on both bands), simulate_intraday opens a long position
and logs its opening trade, and the call then raises AttributeError in
the same-bar exit logic instead of returning a float. -/
theorem zero_sigma_band_opens_position :
    LinReg.openSignal ⟨some 100, some 100, some 0, some 0⟩ 95 = some Side.B ∧
    LinReg.simulate_intraday "AAPL" 0 1 ⟨some 100, some 100, some 0, some 0⟩ none [] [95] =
      Except.error (PyErr.attributeError,
        ⟨some ⟨"AAPL", 95, 0, Side.B, 0, 0⟩,
         [⟨"AAPL", 95, 1, Side.B, 0, "Open long LR strategy intraday", 0⟩,
          ⟨"AAPL", 100, 1, Side.S, 0, "Close long: SL", 5⟩], 0⟩) := by
  refine ⟨?_, linreg_sigma_zero_eval⟩
  norm_num [LinReg.openSignal]

/-- Claim C10: Position stores the average entry price in the attribute
named price and defines no attribute avg_price; consequently, in either
strategy draft, a simulate_intraday run that opens a position reaches the
exit or floating logic on that same bar and raises AttributeError on the
read of position.avg_price instead of returning the float for that
symbol and date: a run returns normally only if it never opened a
position (its trade log is unchanged), and every raised error is the
AttributeError, with the opening trade already logged. -/
theorem avg_price_attribute_error :
    (∀ p : Position, Position.getattr p "price" = some (PyVal.num p.price) ∧
      Position.getattr p "avg_price" = none) ∧
    (∀ (ticker : String) (date volume : ℚ) (ps : LRParams) (trades0 : List Trade)
      (closes : List ℚ) (r : ℚ) (st : SimState),
      LinReg.simulate_intraday ticker date volume ps none trades0 closes =
        Except.ok (r, st) → st.trades = trades0) ∧
    (∀ (ticker : String) (date volume : ℚ) (ps : LRParams) (trades0 : List Trade)
      (closes : List ℚ) (e : PyErr) (st : SimState),
      LinReg.simulate_intraday ticker date volume ps none trades0 closes =
        Except.error (e, st) →
        e = PyErr.attributeError ∧ trades0.length < st.trades.length) ∧
    (∀ (ticker : String) (date : ℚ) (av_vol : Option ℚ) (bars : List Bar) (r : ℚ)
      (st : SimState),
      ORB.simulate_intraday ticker date av_vol bars = Except.ok (r, st) →
        st.trades = []) ∧
    (∀ (ticker : String) (date : ℚ) (av_vol : Option ℚ) (bars : List Bar) (e : PyErr)
      (st : SimState),
      ORB.simulate_intraday ticker date av_vol bars = Except.error (e, st) →
        e = PyErr.attributeError ∧ 0 < st.trades.length) := by
  refine ⟨fun p => ⟨rfl, rfl⟩, ?_, ?_, ?_, ?_⟩
  · intro ticker date volume ps trades0 closes r st heq
    unfold LinReg.simulate_intraday at heq
    rcases LinReg.runBars_dichotomy ticker date volume ps closes ⟨none, trades0, 0⟩ rfl with
      hok | ⟨st1, herr, -⟩
    · have h2 := hok.symm.trans heq
      simp only [Except.ok.injEq, Prod.mk.injEq] at h2
      rw [← h2.2]
    · rw [herr] at heq
      exact Except.noConfusion heq
  · intro ticker date volume ps trades0 closes e st heq
    unfold LinReg.simulate_intraday at heq
    rcases LinReg.runBars_dichotomy ticker date volume ps closes ⟨none, trades0, 0⟩ rfl with
      hok | ⟨st1, herr, hlen⟩
    · rw [hok] at heq
      exact Except.noConfusion heq
    · have h2 := herr.symm.trans heq
      simp only [Except.error.injEq, Prod.mk.injEq] at h2
      refine ⟨h2.1.symm, ?_⟩
      rw [← h2.2]
      exact hlen
  · intro ticker date av_vol bars r st heq
    unfold ORB.simulate_intraday at heq
    by_cases hlt : bars.length < 2
    · rw [if_pos hlt] at heq
      simp only [Except.ok.injEq, Prod.mk.injEq] at heq
      rw [← heq.2]
    · rw [if_neg hlt] at heq
      rcases ORB.loop_dichotomy ticker date (ORB.volumeThreshold av_vol)
        ((bars.getD 0 default).High) ((bars.getD 0 default).Low) bars
        (bars.length - 1) 1 ⟨none, [], 0⟩ rfl with hok | ⟨st1, herr, -⟩
      · have h2 := hok.symm.trans heq
        simp only [Except.ok.injEq, Prod.mk.injEq] at h2
        rw [← h2.2]
      · rw [herr] at heq
        exact Except.noConfusion heq
  · intro ticker date av_vol bars e st heq
    unfold ORB.simulate_intraday at heq
    by_cases hlt : bars.length < 2
    · rw [if_pos hlt] at heq
      exact Except.noConfusion heq
    · rw [if_neg hlt] at heq
      rcases ORB.loop_dichotomy ticker date (ORB.volumeThreshold av_vol)
        ((bars.getD 0 default).High) ((bars.getD 0 default).Low) bars
        (bars.length - 1) 1 ⟨none, [], 0⟩ rfl with hok | ⟨st1, herr, hlen⟩
      · rw [hok] at heq
        exact Except.noConfusion heq
      · have h2 := herr.symm.trans heq
        simp only [Except.error.injEq, Prod.mk.injEq] at h2
        refine ⟨h2.1.symm, ?_⟩
        rw [← h2.2]
        exact hlen

/-- Witness for avg_price_attribute_error: its attribute clause at a
concrete Position, and its LinReg error clause at the concrete run that
opens a long position on its single bar and fails. -/
theorem avg_price_attribute_error_witness :
    Position.getattr ⟨"AAPL", 95, 1, Side.B, 0, 0⟩ "avg_price" = none ∧
    (PyErr.attributeError = PyErr.attributeError ∧
      (0 : ℕ) < [(⟨"AAPL", 95, 1, Side.B, 0, "Open long LR strategy intraday", 0⟩ : Trade),
        ⟨"AAPL", 100, 1, Side.S, 0, "Close long: SL", 5⟩].length) :=
  ⟨(avg_price_attribute_error.1 ⟨"AAPL", 95, 1, Side.B, 0, 0⟩).2,
    avg_price_attribute_error.2.2.1 "AAPL" 0 1 ⟨some 100, some 100, some 0, some 0⟩
      [] [95] PyErr.attributeError
      ⟨some ⟨"AAPL", 95, 0, Side.B, 0, 0⟩,
       [⟨"AAPL", 95, 1, Side.B, 0, "Open long LR strategy intraday", 0⟩,
        ⟨"AAPL", 100, 1, Side.S, 0, "Close long: SL", 5⟩], 0⟩
      linreg_sigma_zero_eval⟩

end IbkrTrading
